import Mathlib

/-!
Verification of the session control loop of `Session 10/agent/agent_loop3.py`
(class `AgentLoop`), shallowly embedded in Lean 4.

External collaborators (perception, decision, executor, memory search) are
parameters: the embedding takes them as pure functions, so every theorem
quantifies over all possible collaborator behaviours.  The loop in the source
has no iteration ceiling, so the embedding takes a `fuel` bound; all claims
proved here hold for every fuel value.

The Python loop mutates `session`, the current `step` object (aliased into the
session's last plan version) and the `session_memory` list; the embedding
threads these explicitly.  Collaborator invocations are recorded in an event
trace so that "collaborator X is never invoked" and "step S is the last step
executed" become statements about the trace.  `Event.windowObs` records the
failure-memory window at each observation point (right before a perception
call, and right before the evaluate phase that may issue a decision call).

The data-model classes (`AgentSession`, `Step`, `PerceptionSnapshot`,
`ToolCode` in `agent/agentSession.py`) are not part of the provided sources;
their definitions below are modelled from the spec (§3) and marked as such.
`live_update_session` and the `print` calls are pure side effects on an
external sink (spec §4.1: fire-and-forget, not an error source) and are not
modelled.
-/

/-- Modelled from the spec: a memory record, either a memory-search match
`{file, query, result_requirement, solution_summary}` (spec §6) or a
failure-memory record `{query, result_requirement, solution_summary}`
(spec §3); the latter carries no `file` key, hence the `Option`. -/
structure MemoryRecord where
  file : Option String
  query : String
  result_requirement : String
  solution_summary : String
deriving DecidableEq, Repr

/-- Modelled from the spec (§3, §6): the structured judgment returned by the
perception collaborator and stored on steps.  The source builds
`PerceptionSnapshot(**perception_result)` from the collaborator's dict; the
contract (§6) requires all fields to be present, so snapshot and result are
a single type here.  `confidence` is a number (§6); we use `Rat`. -/
structure PerceptionSnapshot where
  original_goal_achieved : Bool
  local_goal_achieved : Bool
  confidence : Rat
  reasoning : String
  solution_summary : String
deriving DecidableEq, Repr

/-- Modelled from the spec (§3): the code payload of a `CODE` step.  In the
source it is `ToolCode(tool_name="raw_code_block", tool_arguments={"code": c})`;
`tool_arguments` holds the single key `"code"`, embedded as
`tool_arguments_code`. -/
structure ToolCode where
  tool_name : String
  tool_arguments_code : String
deriving DecidableEq, Repr

/-- The executor's response (spec §6): a record with a mandatory `result`
field plus opaque payload.  The source reads it with
`executor_response.get('result', 'Tool Failed')`, so `result` is embedded as
an `Option`; `repr` stands for the Python `str(...)` rendering of the whole
response object, used when a failure record truncates it. -/
structure ExecResult where
  result : Option String
  repr : String
deriving DecidableEq, Repr

/-- The value stored in `step.execution_result`: the executor's response for
a `CODE` step, or the conclusion text for a `CONCLUDE` step. -/
inductive ExecVal where
  | ofExec (e : ExecResult)
  | ofText (s : String)
deriving DecidableEq, Repr

/-- Python `str(step.execution_result)`. -/
def ExecVal.toStr : ExecVal → String
  | .ofExec e => e.repr
  | .ofText s => s

/-- Modelled from the spec (§3): one unit of work.  `status` moves
`pending → completed | clarification_needed`; `execution_result`,
`status` and `perception` are the fields the control loop sets during
execution. -/
structure Step where
  index : Nat
  description : String
  type : String
  code : Option ToolCode
  conclusion : Option String
  execution_result : Option ExecVal
  status : String
  perception : Option PerceptionSnapshot
deriving DecidableEq, Repr

/-- Modelled from the spec (§3): one plan version, stored by
`add_plan_version` as `{"plan_text": ..., "steps": ...}`. -/
structure PlanVersion where
  plan_text : List String
  steps : List Step
deriving DecidableEq, Repr

/-- Modelled from the spec (§3): the session's mutable `state` record,
holding at minimum `{original_goal_achieved, final_answer, confidence,
reasoning_note}`; `handle_perception_completion` also writes
`solution_summary`.  All fields other than the flag start unset. -/
structure SessionState where
  original_goal_achieved : Bool
  final_answer : Option String
  confidence : Option Rat
  reasoning_note : Option String
  solution_summary : Option String
deriving DecidableEq, Repr

/-- Modelled from the spec (§3): the session record — identity, original
query, the append-only list of plan versions, the mutable state, and the
snapshots attached directly to the opening query via `add_perception`. -/
structure AgentSession where
  session_id : String
  original_query : String
  plan_versions : List PlanVersion
  state : SessionState
  perception_snapshots : List PerceptionSnapshot
deriving DecidableEq, Repr

/-- Modelled from the spec (§3): a freshly created session — empty plan
list, goal not yet achieved, nothing answered. -/
def AgentSession.new (session_id query : String) : AgentSession :=
  { session_id := session_id
  , original_query := query
  , plan_versions := []
  , state :=
      { original_goal_achieved := false
      , final_answer := none
      , confidence := none
      , reasoning_note := none
      , solution_summary := none }
  , perception_snapshots := [] }

/-- Modelled from the spec: `session.add_perception(snapshot)` attaches the
opening-query snapshot to the session. -/
def AgentSession.add_perception (s : AgentSession) (p : PerceptionSnapshot) :
    AgentSession :=
  { s with perception_snapshots := s.perception_snapshots ++ [p] }

/-- Modelled from the spec (§3, §4.1): `session.add_plan_version(plan_text,
steps)` appends a brand-new `PlanVersion` (never mutating a prior one) and
returns the step to run next — the first of the supplied steps (the loop
always supplies exactly one). -/
def AgentSession.add_plan_version (s : AgentSession) (plan_text : List String)
    (steps : List Step) : Option Step × AgentSession :=
  ( steps.head?
  , { s with plan_versions := s.plan_versions ++ [⟨plan_text, steps⟩] } )

/-- Modelled from the spec (§4.1): `session.mark_complete(snapshot,
final_answer=None)` marks the session fully complete from a snapshot; when no
final-answer override is given the snapshot's solution summary serves as the
final answer. -/
def AgentSession.mark_complete (s : AgentSession) (p : PerceptionSnapshot)
    (final_answer : Option String) : AgentSession :=
  { s with state :=
      { original_goal_achieved := true
      , final_answer := some (final_answer.getD p.solution_summary)
      , confidence := some p.confidence
      , reasoning_note := some p.reasoning
      , solution_summary := some p.solution_summary } }

/-- The input assembled by `AgentLoop.run_perception` for the perception
collaborator (`build_perception_input` in the source): raw text, combined
memory context, optional current plan, snapshot type. -/
structure PerceptionInput where
  raw_input : String
  memory : List MemoryRecord
  current_plan : Option (List String)
  snapshot_type : String
deriving DecidableEq, Repr

/-- The two request shapes handed to the decision collaborator
(`make_initial_decision` and `run_mid_session_decision` in the source).
Serialized steps (`s.to_dict()`) are embedded as the `Step` values
themselves. -/
inductive DecisionInput where
  | initialPlan (planning_strategy : String) (original_query : String)
      (perception : PerceptionSnapshot)
  | midSession (planning_strategy : String) (original_query : String)
      (current_plan_version : Nat) (current_plan : List String)
      (completed_steps : List Step) (current_step : Step) (step_failed : Bool)
deriving DecidableEq, Repr

/-- The decision collaborator's output (spec §6): a fully specified next step
plus the plan text.  `code` is read only when `type = "CODE"`,
`conclusion` via `.get`, hence the `Option`. -/
structure DecisionOutput where
  step_index : Nat
  description : String
  type : String
  code : String
  conclusion : Option String
  plan_text : List String
deriving DecidableEq, Repr

/-- One collaborator invocation or loop observation point, recorded in the
order the source performs them.  `windowObs` carries the failure-memory
window (`session_memory`) at that moment. -/
inductive Event where
  | windowObs (window : List MemoryRecord)
  | perceptionCall (input : PerceptionInput)
  | decisionCall (input : DecisionInput)
  | executorCall (code : String)
  | stepStart (st : Step)
deriving DecidableEq, Repr

/-- The external collaborators `AgentLoop.run` depends on, as pure
functions, plus the memory-search result for the query (`search_memory`
returns the collaborator's list unchanged). -/
structure Collaborators where
  memory_results : List MemoryRecord
  perceive : PerceptionInput → PerceptionSnapshot
  decide : DecisionInput → DecisionOutput
  executor : String → ExecResult

/-- `GLOBAL_PREVIOUS_FAILURE_STEPS = 3` in the source. -/
def GLOBAL_PREVIOUS_FAILURE_STEPS : Nat := 3

/-- `session.plan_versions[-1]["plan_text"]`.  Every call site runs with at
least one plan version recorded; the `[]` default stands for the
out-of-context empty case. -/
def lastPlanText (s : AgentSession) : List String :=
  ((s.plan_versions.getLast?).map PlanVersion.plan_text).getD []

/-- `AgentLoop.run_perception`: combines `memory_results` and
`session_memory` by list concatenation and calls the perception collaborator
on the assembled input.  Returns the snapshot, the assembled input and the
trace of the call. -/
def run_perception (perceive : PerceptionInput → PerceptionSnapshot)
    (query : String) (memory_results : List MemoryRecord)
    (session_memory : Option (List MemoryRecord))
    (snapshot_type : String) (current_plan : Option (List String)) :
    PerceptionSnapshot × List Event :=
  let combined_memory := memory_results ++ session_memory.getD []
  let input : PerceptionInput :=
    { raw_input := query
    , memory := combined_memory
    , current_plan := current_plan
    , snapshot_type := snapshot_type }
  (perceive input, [Event.perceptionCall input])

/-- `AgentLoop.handle_perception_completion`: `session.state.update({...})`
with the five keys written by the source.  The dict-`get` defaults
(`"Answer ready."`, `0.95`, `"Handled by perception."`) are unreachable
because the perception contract (spec §6) guarantees every field. -/
def handle_perception_completion (session : AgentSession)
    (perception_result : PerceptionSnapshot) : AgentSession :=
  { session with state :=
      { original_goal_achieved := true
      , final_answer := some perception_result.solution_summary
      , confidence := some perception_result.confidence
      , reasoning_note := some perception_result.reasoning
      , solution_summary := some perception_result.solution_summary } }

/-- `AgentLoop.create_step`: builds a fresh `Step` from a decision output;
a `ToolCode` payload is attached exactly when the type is `"CODE"`.
Initial `status`/result fields are the data model's defaults (spec §3). -/
def create_step (decision_output : DecisionOutput) : Step :=
  { index := decision_output.step_index
  , description := decision_output.description
  , type := decision_output.type
  , code :=
      if decision_output.type = "CODE" then
        some { tool_name := "raw_code_block"
             , tool_arguments_code := decision_output.code }
      else none
  , conclusion := decision_output.conclusion
  , execution_result := none
  , status := "pending"
  , perception := none }

/-- The code payload a `CODE` step executes
(`step.code.tool_arguments["code"]`); every `CODE` step built by
`create_step` carries one. -/
def stepCode (st : Step) : String :=
  (st.code.map ToolCode.tool_arguments_code).getD ""

/-- The failure-record append in `AgentLoop.execute_step`:
`session_memory.append(failure_memory)` followed by
`session_memory.pop(0)` when the length exceeds
`GLOBAL_PREVIOUS_FAILURE_STEPS`. -/
def pushFailure (session_memory : List MemoryRecord) (failure : MemoryRecord) :
    List MemoryRecord :=
  if (session_memory ++ [failure]).length > GLOBAL_PREVIOUS_FAILURE_STEPS then
    (session_memory ++ [failure]).tail
  else session_memory ++ [failure]

/-- The executed step is aliased into the session's latest plan version
(each version holds exactly the one step the loop is running): storing the
mutated step replaces that version's step list. -/
def setCurrentStep (s : AgentSession) (st : Step) : AgentSession :=
  { s with plan_versions :=
      match s.plan_versions.getLast? with
      | none => s.plan_versions
      | some v => s.plan_versions.dropLast ++ [{ v with steps := [st] }] }

/-- `AgentLoop.execute_step`: dispatch on the step type.  Returns the Python
return value (`some step` to continue into evaluation, `none` for the
self-terminating `CONCLUDE`/`NOP` branches and for unknown types, which fall
off the end of the method), the updated session, the updated failure-memory
window and the event trace.  A `windowObs` is recorded with the window each
perception call receives. -/
def execute_step (perceive : PerceptionInput → PerceptionSnapshot)
    (executor : String → ExecResult) (st : Step) (session : AgentSession)
    (session_memory : List MemoryRecord) :
    Option Step × AgentSession × List MemoryRecord × List Event :=
  if st.type = "CODE" then
    let executor_response := executor (stepCode st)
    let st1 := { st with execution_result := some (ExecVal.ofExec executor_response)
                       , status := "completed" }
    let (perception_result, pev) :=
      run_perception perceive (executor_response.result.getD "Tool Failed")
        session_memory none "step_result" (some (lastPlanText session))
    let st2 := { st1 with perception := some perception_result }
    let session_memory1 :=
      if !perception_result.local_goal_achieved then
        pushFailure session_memory
          { file := none
          , query := st.description
          , result_requirement := "Tool failed"
          , solution_summary :=
              ((ExecVal.ofExec executor_response).toStr).take 300 }
      else session_memory
    ( some st2
    , setCurrentStep session st2
    , session_memory1
    , [Event.stepStart st, Event.executorCall (stepCode st),
       Event.windowObs session_memory] ++ pev )
  else if st.type = "CONCLUDE" then
    let conclusion := st.conclusion.getD ""
    let st1 := { st with execution_result := some (ExecVal.ofText conclusion)
                       , status := "completed" }
    let (perception_result, pev) :=
      run_perception perceive conclusion session_memory none "step_result"
        (some (lastPlanText session))
    let st2 := { st1 with perception := some perception_result }
    let session1 := setCurrentStep session st2
    let session2 := session1.mark_complete perception_result (some conclusion)
    ( none
    , session2
    , session_memory
    , [Event.stepStart st, Event.windowObs session_memory] ++ pev )
  else if st.type = "NOP" then
    let st1 := { st with status := "clarification_needed" }
    (none, setCurrentStep session st1, session_memory, [Event.stepStart st])
  else
    (none, session, session_memory, [Event.stepStart st])

/-- The serialized completed steps handed to a mid-session decision:
`[s.to_dict() for version in session.plan_versions for s in version["steps"]
if s.status == "completed"]`. -/
def completedSteps (session : AgentSession) : List Step :=
  (session.plan_versions.flatMap PlanVersion.steps).filter
    (fun s => s.status = "completed")

/-- `AgentLoop.run_mid_session_decision`: assembles the mid-session request
and calls the decision collaborator. -/
def run_mid_session_decision (decide : DecisionInput → DecisionOutput)
    (strategy : String) (session : AgentSession) (query : String)
    (completed_step : Step) (step_failed : Bool) :
    DecisionOutput × List Event :=
  let input : DecisionInput :=
    DecisionInput.midSession strategy query session.plan_versions.length
      (lastPlanText session) (completedSteps session) completed_step step_failed
  (decide input, [Event.decisionCall input])

/-- `AgentLoop.append_new_plan_version`: records the decision output as a
brand-new plan version holding the one freshly created step, and returns
that step. -/
def append_new_plan_version (session : AgentSession)
    (decision_output : DecisionOutput) : Option Step × AgentSession :=
  session.add_plan_version decision_output.plan_text
    [create_step decision_output]

/-- `AgentLoop.get_next_step`: when the latest plan text still has a line
after the completed step's index, request a mid-session decision with
`step_failed = False` and materialize its output as a new plan version;
otherwise stop with no further action. -/
def get_next_step (decide : DecisionInput → DecisionOutput) (strategy : String)
    (session : AgentSession) (query : String) (completed_step : Step) :
    Option Step × AgentSession × List Event :=
  let latest_plan := lastPlanText session
  let next_index := completed_step.index + 1
  if next_index < latest_plan.length then
    let (decision_output, dev) :=
      run_mid_session_decision decide strategy session query completed_step false
    let (st, session1) := append_new_plan_version session decision_output
    (st, session1, dev)
  else
    (none, session, [])

/-- `AgentLoop.replan_after_failure`: request a mid-session decision with
`step_failed = True` and materialize its output as a new plan version. -/
def replan_after_failure (decide : DecisionInput → DecisionOutput)
    (strategy : String) (session : AgentSession) (query : String)
    (failed_step : Step) : Option Step × AgentSession × List Event :=
  let (decision_output, dev) :=
    run_mid_session_decision decide strategy session query failed_step true
  let (st, session1) := append_new_plan_version session decision_output
  (st, session1, dev)

/-- The snapshot `evaluate_step` reads from `step.perception`; the source
accesses the attribute directly (it is always set for the steps the loop
evaluates), so the default is out of context. -/
def evalSnapshot (st : Step) : PerceptionSnapshot :=
  st.perception.getD
    { original_goal_achieved := false, local_goal_achieved := false
    , confidence := 0, reasoning := "", solution_summary := "" }

/-- `AgentLoop.evaluate_step`: inspect the executed step's snapshot in
strict priority order — session complete, advance, or replan. -/
def evaluate_step (decide : DecisionInput → DecisionOutput) (strategy : String)
    (st : Step) (session : AgentSession) (query : String) :
    Option Step × AgentSession × List Event :=
  if (evalSnapshot st).original_goal_achieved then
    (none, session.mark_complete (evalSnapshot st) none, [])
  else if (evalSnapshot st).local_goal_achieved then
    get_next_step decide strategy session query st
  else
    replan_after_failure decide strategy session query st

/-- The `while step:` loop of `AgentLoop.run`, bounded by fuel (the source
has no iteration ceiling; every theorem holds for all fuel).  Each iteration
executes the current step, breaks when `execute_step` returns `None`
(`CONCLUDE`/`NOP` protection), otherwise evaluates; a `windowObs` records
the window at the evaluate phase, where decision calls happen. -/
def loopSteps (perceive : PerceptionInput → PerceptionSnapshot)
    (executor : String → ExecResult) (decide : DecisionInput → DecisionOutput)
    (strategy query : String) :
    Nat → Step → AgentSession → List MemoryRecord →
      AgentSession × List Event
  | 0, _, session, _ => (session, [])
  | Nat.succ fuel, st, session, session_memory =>
    let (step_result, session1, session_memory1, ev1) :=
      execute_step perceive executor st session session_memory
    match step_result with
    | none => (session1, ev1)
    | some st1 =>
      let (next, session2, ev2) :=
        evaluate_step decide strategy st1 session1 query
      match next with
      | none => (session2, ev1 ++ Event.windowObs session_memory1 :: ev2)
      | some st2 =>
        let (sessionN, ev3) :=
          loopSteps perceive executor decide strategy query fuel st2 session2
            session_memory1
        (sessionN, ev1 ++ Event.windowObs session_memory1 :: ev2 ++ ev3)

/-- The opening perception input of `AgentLoop.run`: the query with the
memory-search results passed as both `memory_results` and `session_memory`,
hence concatenated with themselves. -/
def openingInput (c : Collaborators) (query : String) : PerceptionInput :=
  { raw_input := query
  , memory := c.memory_results ++ c.memory_results
  , current_plan := none
  , snapshot_type := "user_query" }

/-- `AgentLoop.run`: create the session, search memory, run the opening
perception (fast-path exit when the original goal is already achieved),
request the initial decision, record plan version 1 and enter the loop.
`session_id` stands for the generated uuid; `session_memory` starts empty. -/
def AgentLoop.run (c : Collaborators) (strategy session_id query : String)
    (fuel : Nat) : AgentSession × List Event :=
  let session := AgentSession.new session_id query
  let (perception_result, pev) :=
    run_perception c.perceive query c.memory_results (some c.memory_results)
      "user_query" none
  let session1 := session.add_perception perception_result
  let ev0 := Event.windowObs [] :: pev
  if perception_result.original_goal_achieved then
    (handle_perception_completion session1 perception_result, ev0)
  else
    let decision_input :=
      DecisionInput.initialPlan strategy query perception_result
    let decision_output := c.decide decision_input
    let (st, session2) :=
      session1.add_plan_version decision_output.plan_text
        [create_step decision_output]
    let ev1 := ev0 ++ [Event.windowObs [], Event.decisionCall decision_input]
    match st with
    | none => (session2, ev1)
    | some st0 =>
      let (sessionN, ev2) :=
        loopSteps c.perceive c.executor c.decide strategy query fuel st0
          session2 []
      (sessionN, ev1 ++ ev2)

/-- A concrete perception snapshot with the two goal flags chosen freely,
used to instantiate theorems on concrete runs. -/
def exSnap (o l : Bool) : PerceptionSnapshot :=
  { original_goal_achieved := o, local_goal_achieved := l
  , confidence := 1, reasoning := "why", solution_summary := "sum" }

/-- A concrete memory record. -/
def exRec (q : String) : MemoryRecord :=
  { file := none, query := q, result_requirement := "rr"
  , solution_summary := "ss" }

/-- A concrete executor response. -/
def exExec : ExecResult := { result := some "ok", repr := "res-repr" }

/-- A concrete decision collaborator that always emits a step of the given
type with a two-line plan. -/
def exDecide (t : String) : DecisionInput → DecisionOutput := fun _ =>
  { step_index := 0, description := "d", type := t, code := "c"
  , conclusion := some "done", plan_text := ["l0", "l1"] }

/-- Concrete collaborators whose opening perception already reports the
original goal achieved. -/
def cFast : Collaborators :=
  { memory_results := [exRec "m"]
  , perceive := fun _ => exSnap true true
  , decide := exDecide "CODE"
  , executor := fun _ => exExec }

/-- Concrete collaborators whose decision always returns a `NOP` step and
whose perception never reports any goal achieved. -/
def cNop : Collaborators :=
  { memory_results := []
  , perceive := fun _ => exSnap false false
  , decide := exDecide "NOP"
  , executor := fun _ => exExec }

/-- The opening perception snapshot of a run: the perception collaborator's
judgment on the opening input. -/
def openingSnapshot (c : Collaborators) (query : String) : PerceptionSnapshot :=
  c.perceive (openingInput c query)

/-- The initial decision request of a run (`make_initial_decision`):
`plan_mode = "initial"` with the strategy, the query and the opening
perception result. -/
def initialInput (c : Collaborators) (strategy query : String) : DecisionInput :=
  DecisionInput.initialPlan strategy query (openingSnapshot c query)

/-- The initial decision output of a run. -/
def initialDecision (c : Collaborators) (strategy query : String) :
    DecisionOutput :=
  c.decide (initialInput c strategy query)

/-- The session as it stands when the execution loop is entered: opening
snapshot attached and plan version 1 recorded. -/
def sessionAfterPlan1 (c : Collaborators) (strategy session_id query : String) :
    AgentSession :=
  (((AgentSession.new session_id query).add_perception
      (openingSnapshot c query)).add_plan_version
    (initialDecision c strategy query).plan_text
    [create_step (initialDecision c strategy query)]).2

/-- The perception input built for a `CODE` step's execution result inside
`execute_step` (the `session_memory=None` argument of `run_perception`
contributes the empty list). -/
def stepResultInput (executor_response : ExecResult)
    (session_memory : List MemoryRecord) (plan_text : List String) :
    PerceptionInput :=
  { raw_input := executor_response.result.getD "Tool Failed"
  , memory := session_memory ++ []
  , current_plan := some plan_text
  , snapshot_type := "step_result" }

/-- The perception input built for a `CONCLUDE` step's conclusion text
inside `execute_step`. -/
def concludeInput (conclusion : String)
    (session_memory : List MemoryRecord) (plan_text : List String) :
    PerceptionInput :=
  { raw_input := conclusion
  , memory := session_memory ++ []
  , current_plan := some plan_text
  , snapshot_type := "step_result" }

/-- The steps a trace records as executed, in execution order. -/
def executedSteps (evs : List Event) : List Step :=
  evs.filterMap fun e =>
    match e with
    | Event.stepStart st => some st
    | _ => none

/-- The failure record `execute_step` appends for a `CODE` step whose local
goal was not achieved. -/
def failureRecord (st : Step) (executor_response : ExecResult) : MemoryRecord :=
  { file := none
  , query := st.description
  , result_requirement := "Tool failed"
  , solution_summary := ((ExecVal.ofExec executor_response).toStr).take 300 }

/-- The request `run_mid_session_decision` assembles: plan-mode
`mid_session` with the current plan version number, the latest plan text,
every completed step across all plan versions, the just-finished step and
the `step_failed` flag. -/
def midInput (strategy query : String) (session : AgentSession)
    (completed_step : Step) (step_failed : Bool) : DecisionInput :=
  DecisionInput.midSession strategy query session.plan_versions.length
    (lastPlanText session) (completedSteps session) completed_step step_failed

/-- The plan-version shape invariant: at least one version is recorded and
every version's step list is non-empty. -/
def planInv (s : AgentSession) : Prop :=
  1 ≤ s.plan_versions.length ∧ ∀ v ∈ s.plan_versions, v.steps ≠ []

/-- A concrete pending `CODE` step. -/
def exStepCode : Step :=
  { index := 0, description := "d", type := "CODE"
  , code := some { tool_name := "raw_code_block", tool_arguments_code := "c" }
  , conclusion := some "done", execution_result := none, status := "pending"
  , perception := none }

/-- A concrete pending `CONCLUDE` step. -/
def exStepConclude : Step := { exStepCode with type := "CONCLUDE", code := none }

/-- A concrete pending `NOP` step. -/
def exStepNop : Step := { exStepCode with type := "NOP", code := none }

/-- A concrete session holding one plan version with a two-line plan. -/
def exSession : AgentSession :=
  (((AgentSession.new "sid" "q").add_perception (exSnap false false)).add_plan_version
    ["l0", "l1"] [exStepCode]).2

/-- The concrete `CODE` step after execution, with an
original-achieved/local-missed snapshot attached. -/
def exStepOrigDone : Step :=
  { exStepCode with
    execution_result := some (ExecVal.ofExec exExec)
    status := "completed"
    perception := some (exSnap true false) }

/-- The concrete `CODE` step after execution, with an
original-missed/local-achieved snapshot attached. -/
def exStepLocalDone : Step :=
  { exStepCode with
    execution_result := some (ExecVal.ofExec exExec)
    status := "completed"
    perception := some (exSnap false true) }

/-- The concrete `CODE` step after execution, with a
nothing-achieved snapshot attached. -/
def exStepFailDone : Step :=
  { exStepCode with
    execution_result := some (ExecVal.ofExec exExec)
    status := "completed"
    perception := some (exSnap false false) }

/-- The concrete `CONCLUDE` step after execution. -/
def exStepConcludeDone : Step :=
  { exStepConclude with
    execution_result := some (ExecVal.ofText "done")
    status := "completed"
    perception := some (exSnap false false) }

/-- Concrete collaborators whose decision always returns a `CONCLUDE` step
and whose perception never reports any goal achieved. -/
def cConclude : Collaborators :=
  { memory_results := []
  , perceive := fun _ => exSnap false false
  , decide := exDecide "CONCLUDE"
  , executor := fun _ => exExec }

theorem pushFailure_length_le (sm : List MemoryRecord) (f : MemoryRecord)
    (h : sm.length ≤ GLOBAL_PREVIOUS_FAILURE_STEPS) :
    (pushFailure sm f).length ≤ GLOBAL_PREVIOUS_FAILURE_STEPS := by
  unfold pushFailure
  split <;> rename_i hc <;>
    simp only [List.length_tail, List.length_append, List.length_singleton,
      gt_iff_lt, not_lt] at hc ⊢ <;> omega

theorem pushFailure_fifo (sm : List MemoryRecord) (f : MemoryRecord)
    (h : sm.length = GLOBAL_PREVIOUS_FAILURE_STEPS) :
    pushFailure sm f = sm.tail ++ [f] := by
  unfold pushFailure
  rw [if_pos]
  · cases sm with
    | nil => simp [GLOBAL_PREVIOUS_FAILURE_STEPS] at h
    | cons a t => simp
  · simp [h, GLOBAL_PREVIOUS_FAILURE_STEPS]

theorem execute_step_window_cases (perceive : PerceptionInput → PerceptionSnapshot)
    (executor : String → ExecResult) (st : Step) (session : AgentSession)
    (sm : List MemoryRecord) :
    (execute_step perceive executor st session sm).2.2.1 = sm ∨
    ∃ f, (execute_step perceive executor st session sm).2.2.1 = pushFailure sm f := by
  unfold execute_step
  split
  · dsimp only [run_perception]
    split
    · right; exact ⟨_, rfl⟩
    · left; rfl
  · split
    · left; rfl
    · split
      · left; rfl
      · left; rfl

theorem execute_step_windowObs_eq (perceive : PerceptionInput → PerceptionSnapshot)
    (executor : String → ExecResult) (st : Step) (session : AgentSession)
    (sm : List MemoryRecord) (w : List MemoryRecord)
    (hmem : Event.windowObs w ∈ (execute_step perceive executor st session sm).2.2.2) :
    w = sm := by
  revert hmem
  unfold execute_step
  split
  · dsimp only [run_perception]
    intro hmem
    simp only [List.mem_append, List.mem_cons, List.mem_singleton] at hmem
    rcases hmem with ((h | h) | h) | h <;> simp_all
  · split
    · dsimp only [run_perception]
      intro hmem
      simp only [List.mem_append, List.mem_cons, List.mem_singleton] at hmem
      rcases hmem with (h | h) | h <;> simp_all
    · split
      · intro hmem; simp at hmem
      · intro hmem; simp at hmem

theorem evaluate_step_no_windowObs (decide : DecisionInput → DecisionOutput)
    (strategy : String) (st : Step) (session : AgentSession) (query : String)
    (w : List MemoryRecord) :
    Event.windowObs w ∉ (evaluate_step decide strategy st session query).2.2 := by
  simp only [evaluate_step, get_next_step, replan_after_failure,
    run_mid_session_decision]
  split_ifs <;> simp

theorem run_eq_fast (c : Collaborators) (strategy session_id query : String)
    (fuel : Nat)
    (h : (openingSnapshot c query).original_goal_achieved = true) :
    AgentLoop.run c strategy session_id query fuel =
      (handle_perception_completion
          ((AgentSession.new session_id query).add_perception
            (openingSnapshot c query))
          (openingSnapshot c query),
        [Event.windowObs [], Event.perceptionCall (openingInput c query)]) := by
  simp only [openingSnapshot, openingInput] at h ⊢
  simp only [AgentLoop.run, run_perception, Option.getD_some] at h ⊢
  simp [h]

theorem run_eq_slow (c : Collaborators) (strategy session_id query : String)
    (fuel : Nat)
    (h : (openingSnapshot c query).original_goal_achieved = false) :
    AgentLoop.run c strategy session_id query fuel =
      ((loopSteps c.perceive c.executor c.decide strategy query fuel
          (create_step (initialDecision c strategy query))
          (sessionAfterPlan1 c strategy session_id query) []).1,
        [Event.windowObs [], Event.perceptionCall (openingInput c query),
          Event.windowObs [], Event.decisionCall (initialInput c strategy query)] ++
          (loopSteps c.perceive c.executor c.decide strategy query fuel
            (create_step (initialDecision c strategy query))
            (sessionAfterPlan1 c strategy session_id query) []).2) := by
  simp only [openingSnapshot, openingInput, initialDecision, initialInput,
    sessionAfterPlan1] at h ⊢
  simp only [AgentLoop.run, run_perception, AgentSession.add_plan_version,
    Option.getD_some] at h ⊢
  simp [h]

theorem loopSteps_windowObs_bound (perceive : PerceptionInput → PerceptionSnapshot)
    (executor : String → ExecResult) (decide : DecisionInput → DecisionOutput)
    (strategy query : String) :
    ∀ (fuel : Nat) (st : Step) (session : AgentSession) (sm : List MemoryRecord),
      sm.length ≤ GLOBAL_PREVIOUS_FAILURE_STEPS →
      ∀ w, Event.windowObs w ∈
          (loopSteps perceive executor decide strategy query fuel st session sm).2 →
        w.length ≤ GLOBAL_PREVIOUS_FAILURE_STEPS := by
  intro fuel
  induction fuel with
  | zero =>
    intro st session sm hsm w hw
    simp [loopSteps] at hw
  | succ fuel ih =>
    intro st session sm hsm w hw
    rcases hE : execute_step perceive executor st session sm with
      ⟨step_result, session1, sm1, ev1⟩
    have hsm1 : sm1.length ≤ GLOBAL_PREVIOUS_FAILURE_STEPS := by
      rcases execute_step_window_cases perceive executor st session sm with
        hc | ⟨f, hc⟩ <;> rw [hE] at hc <;> simp only at hc <;> rw [hc]
      · exact hsm
      · exact pushFailure_length_le sm f hsm
    have hev1 : ∀ w, Event.windowObs w ∈ ev1 → w = sm := by
      intro w hw
      have := execute_step_windowObs_eq perceive executor st session sm w
      rw [hE] at this
      exact this hw
    simp only [loopSteps, hE] at hw
    cases step_result with
    | none =>
      simp only at hw
      rw [hev1 w hw]; exact hsm
    | some st1 =>
      rcases hEv : evaluate_step decide strategy st1 session1 query with
        ⟨next, session2, ev2⟩
      have hev2 : ∀ w, Event.windowObs w ∉ ev2 := by
        intro w hw
        have := evaluate_step_no_windowObs decide strategy st1 session1 query w
        rw [hEv] at this
        exact this hw
      simp only [hEv] at hw
      cases next with
      | none =>
        simp only at hw
        cases List.mem_append.mp hw with
        | inl hw => rw [hev1 w hw]; exact hsm
        | inr hw =>
          cases List.mem_cons.mp hw with
          | inl hw => cases hw; exact hsm1
          | inr hw => exact absurd hw (hev2 w)
      | some st2 =>
        rcases hL : loopSteps perceive executor decide strategy query fuel st2
            session2 sm1 with ⟨sessionN, ev3⟩
        simp only [hL] at hw
        cases List.mem_append.mp hw with
        | inl hw =>
          cases List.mem_append.mp hw with
          | inl hw => rw [hev1 w hw]; exact hsm
          | inr hw =>
            cases List.mem_cons.mp hw with
            | inl hw => cases hw; exact hsm1
            | inr hw => exact absurd hw (hev2 w)
        | inr hw =>
          have := ih st2 session2 sm1 hsm1 w
          rw [hL] at this
          exact this hw

/-- C1: Fast-path law — for every query and all collaborator behaviours, if
the opening perception call (run over the query and memory results) returns
a snapshot with `original_goal_achieved = true`, then `run` returns without
ever invoking the decision or execution collaborators, and the returned
session's state has `original_goal_achieved = true` with `final_answer`,
`confidence` and `reasoning_note` taken from the perception output. -/
theorem fast_path_law (c : Collaborators) (strategy session_id query : String)
    (fuel : Nat)
    (h : (c.perceive (openingInput c query)).original_goal_achieved = true) :
    (∀ e ∈ (AgentLoop.run c strategy session_id query fuel).2,
        (∀ din, e ≠ Event.decisionCall din) ∧
        (∀ cd, e ≠ Event.executorCall cd)) ∧
    (AgentLoop.run c strategy session_id query fuel).1.state.original_goal_achieved
        = true ∧
    (AgentLoop.run c strategy session_id query fuel).1.state.final_answer =
      some (c.perceive (openingInput c query)).solution_summary ∧
    (AgentLoop.run c strategy session_id query fuel).1.state.confidence =
      some (c.perceive (openingInput c query)).confidence ∧
    (AgentLoop.run c strategy session_id query fuel).1.state.reasoning_note =
      some (c.perceive (openingInput c query)).reasoning := by
  have h' : (openingSnapshot c query).original_goal_achieved = true := h
  rw [run_eq_fast c strategy session_id query fuel h']
  refine ⟨?_, rfl, rfl, rfl, rfl⟩
  intro e he
  simp only [List.mem_cons, List.mem_singleton, List.not_mem_nil] at he
  rcases he with he | he | he
  · subst he; exact ⟨fun _ => by simp, fun _ => by simp⟩
  · subst he; exact ⟨fun _ => by simp, fun _ => by simp⟩
  · exact he.elim

/-- Witness for C1 at concrete collaborators whose opening perception
already reports the goal achieved. -/
theorem fast_path_law_witness :
    (AgentLoop.run cFast "exploratory" "sid" "q" 1).1.state.original_goal_achieved
        = true ∧
    (AgentLoop.run cFast "exploratory" "sid" "q" 1).1.state.final_answer =
      some "sum" :=
  ⟨(fast_path_law cFast "exploratory" "sid" "q" 1 (by decide)).2.1,
   (fast_path_law cFast "exploratory" "sid" "q" 1 (by decide)).2.2.1⟩

/-- C2: Bounded failure-memory invariant — at every observation point of the
loop the failure-memory window holds at most 3 entries, and appending a 4th
failure record evicts exactly the oldest of the previous 3 entries (FIFO),
leaving the other entries in order. -/
theorem failure_window_bounded_fifo (c : Collaborators)
    (strategy session_id query : String) (fuel : Nat) :
    (∀ w, Event.windowObs w ∈ (AgentLoop.run c strategy session_id query fuel).2 →
        w.length ≤ GLOBAL_PREVIOUS_FAILURE_STEPS) ∧
    (∀ (sm : List MemoryRecord) (f : MemoryRecord),
        sm.length = GLOBAL_PREVIOUS_FAILURE_STEPS →
        pushFailure sm f = sm.tail ++ [f] ∧
        (pushFailure sm f).length = GLOBAL_PREVIOUS_FAILURE_STEPS) := by
  constructor
  · intro w hw
    by_cases h : (openingSnapshot c query).original_goal_achieved = true
    · rw [run_eq_fast c strategy session_id query fuel h] at hw
      simp only [List.mem_cons, List.not_mem_nil, or_false] at hw
      rcases hw with hw | hw
      · cases hw; simp
      · cases hw
    · have h' : (openingSnapshot c query).original_goal_achieved = false := by
        simpa using h
      rw [run_eq_slow c strategy session_id query fuel h'] at hw
      simp only [List.cons_append, List.nil_append, List.mem_cons] at hw
      rcases hw with hw | hw | hw | hw | hw
      · cases hw; simp
      · cases hw
      · cases hw; simp
      · cases hw
      · exact loopSteps_windowObs_bound c.perceive c.executor c.decide strategy
          query fuel (create_step (initialDecision c strategy query))
          (sessionAfterPlan1 c strategy session_id query) [] (by simp) w hw
  · intro sm f h
    refine ⟨pushFailure_fifo sm f h, ?_⟩
    rw [pushFailure_fifo sm f h]
    cases sm with
    | nil => simp [GLOBAL_PREVIOUS_FAILURE_STEPS] at h
    | cons a t =>
      simp only [List.length_cons, GLOBAL_PREVIOUS_FAILURE_STEPS] at h ⊢
      simp only [List.tail_cons, List.length_append, List.length_singleton]
      omega

/-- Witness for C2: the FIFO law at a concrete 3-entry window, and the
bound at a concrete window observed in a concrete run. -/
theorem failure_window_bounded_fifo_witness :
    pushFailure [exRec "a", exRec "b", exRec "c"] (exRec "d") =
      [exRec "b", exRec "c", exRec "d"] ∧
    (([] : List MemoryRecord)).length ≤ GLOBAL_PREVIOUS_FAILURE_STEPS := by
  constructor
  · have h := (failure_window_bounded_fifo cNop "exploratory" "sid" "q" 1).2
      [exRec "a", exRec "b", exRec "c"] (exRec "d") (by decide)
    simpa using h.1
  · exact (failure_window_bounded_fifo cNop "exploratory" "sid" "q" 1).1
      [] (by decide)

/-- C10: the memory context handed to the opening perception call is the
memory-search result list concatenated with itself (`run` passes
`memory_results` as both the `memory_results` and `session_memory` arguments
of `run_perception`), so every retrieved record appears twice in the memory
given to perception. -/
theorem opening_memory_doubled (c : Collaborators)
    (strategy session_id query : String) (fuel : Nat) :
    (∃ rest, (AgentLoop.run c strategy session_id query fuel).2 =
        Event.windowObs [] :: Event.perceptionCall (openingInput c query) :: rest) ∧
    (openingInput c query).memory = c.memory_results ++ c.memory_results ∧
    ∀ r ∈ c.memory_results,
      (openingInput c query).memory.count r = 2 * c.memory_results.count r := by
  refine ⟨?_, rfl, ?_⟩
  · by_cases h : (openingSnapshot c query).original_goal_achieved = true
    · exact ⟨[], by rw [run_eq_fast c strategy session_id query fuel h]⟩
    · have h' : (openingSnapshot c query).original_goal_achieved = false := by
        simpa using h
      refine ⟨Event.windowObs [] :: Event.decisionCall (initialInput c strategy query)
        :: (loopSteps c.perceive c.executor c.decide strategy query fuel
            (create_step (initialDecision c strategy query))
            (sessionAfterPlan1 c strategy session_id query) []).2, ?_⟩
      rw [run_eq_slow c strategy session_id query fuel h']
      simp
  · intro r _
    simp [openingInput, List.count_append, two_mul]

/-- Witness for C10 at concrete collaborators with one memory-search
match. -/
theorem opening_memory_doubled_witness :
    (openingInput cFast "q").memory.count (exRec "m") =
      2 * cFast.memory_results.count (exRec "m") :=
  (opening_memory_doubled cFast "exploratory" "sid" "q" 1).2.2 (exRec "m")
    (by decide)

/-- C4: Strict evaluation priority — for every executed step with an
attached perception snapshot, `evaluate_step` inspects the snapshot in
strict priority order: if `original_goal_achieved` is true the session is
marked complete using that snapshot with no final-answer override and the
loop stops (`none` is returned); otherwise if `local_goal_achieved` is true
the loop advances; otherwise it replans.  In particular a snapshot with
`original_goal_achieved = true` and `local_goal_achieved = false` completes
the session. -/
theorem evaluate_priority (decide : DecisionInput → DecisionOutput)
    (strategy : String) (st : Step) (session : AgentSession) (query : String)
    (p : PerceptionSnapshot) (hp : st.perception = some p) :
    (p.original_goal_achieved = true →
      evaluate_step decide strategy st session query =
        (none, session.mark_complete p none, [])) ∧
    (p.original_goal_achieved = false → p.local_goal_achieved = true →
      evaluate_step decide strategy st session query =
        get_next_step decide strategy session query st) ∧
    (p.original_goal_achieved = false → p.local_goal_achieved = false →
      evaluate_step decide strategy st session query =
        replan_after_failure decide strategy session query st) := by
  refine ⟨fun h1 => ?_, fun h1 h2 => ?_, fun h1 h2 => ?_⟩ <;>
    simp [evaluate_step, evalSnapshot, hp, h1]
  · intro h; rw [h] at h2; cases h2
  · simp [h2]

/-- Witness for C4: a concrete executed step whose snapshot has
`original_goal_achieved = true` and `local_goal_achieved = false` completes
the session with that snapshot. -/
theorem evaluate_priority_witness :
    evaluate_step (exDecide "CODE") "exploratory" exStepOrigDone exSession "q" =
      (none, exSession.mark_complete (exSnap true false) none, []) :=
  (evaluate_priority (exDecide "CODE") "exploratory" exStepOrigDone exSession
    "q" (exSnap true false) rfl).1 rfl

/-- C5: Advance law — for every completed step whose snapshot has
`original_goal_achieved = false` and `local_goal_achieved = true`: when
`completed_step.index + 1 < len(plan_text)` of the latest plan version, a
mid-session decision is requested with `step_failed = false` and its output
is appended as a brand-new plan version (the plan-version count increases by
exactly 1 and every prior version is preserved unchanged) whose step
continues the loop; when no next plan line exists the loop stops with no
further action. -/
theorem advance_law (decide : DecisionInput → DecisionOutput)
    (strategy : String) (st : Step) (session : AgentSession) (query : String)
    (p : PerceptionSnapshot) (hp : st.perception = some p)
    (ho : p.original_goal_achieved = false)
    (hl : p.local_goal_achieved = true) :
    (st.index + 1 < (lastPlanText session).length →
      evaluate_step decide strategy st session query =
        (some (create_step (decide (midInput strategy query session st false))),
         { session with plan_versions := session.plan_versions ++
             [⟨(decide (midInput strategy query session st false)).plan_text,
               [create_step (decide (midInput strategy query session st false))]⟩] },
         [Event.decisionCall (midInput strategy query session st false)]) ∧
      (evaluate_step decide strategy st session query).2.1.plan_versions.length =
        session.plan_versions.length + 1 ∧
      (evaluate_step decide strategy st session query).2.1.plan_versions.take
        session.plan_versions.length = session.plan_versions) ∧
    (¬ st.index + 1 < (lastPlanText session).length →
      evaluate_step decide strategy st session query = (none, session, [])) := by
  constructor
  · intro hnext
    have heq : evaluate_step decide strategy st session query =
        (some (create_step (decide (midInput strategy query session st false))),
         { session with plan_versions := session.plan_versions ++
             [⟨(decide (midInput strategy query session st false)).plan_text,
               [create_step (decide (midInput strategy query session st false))]⟩] },
         [Event.decisionCall (midInput strategy query session st false)]) := by
      simp [evaluate_step, evalSnapshot, hp, ho, hl, get_next_step, hnext,
        run_mid_session_decision, append_new_plan_version,
        AgentSession.add_plan_version, midInput]
    refine ⟨heq, ?_, ?_⟩ <;> rw [heq] <;> simp
  · intro hnext
    simp [evaluate_step, evalSnapshot, hp, ho, hl, get_next_step, hnext]

/-- Witness for C5: a concrete completed step at index 0 of a two-line plan
advances and appends plan version 2. -/
theorem advance_law_witness :
    (evaluate_step (exDecide "CODE") "exploratory" exStepLocalDone exSession
        "q").2.1.plan_versions.length = exSession.plan_versions.length + 1 :=
  ((advance_law (exDecide "CODE") "exploratory" exStepLocalDone exSession "q"
    (exSnap false true) rfl rfl rfl).1 (by decide)).2.1

/-- C6: Replan law — for every executed `CODE` step whose snapshot has both
`original_goal_achieved = false` and `local_goal_achieved = false`, a
failure record `{description, "Tool failed", result truncated to 300
characters}` is appended to the failure-memory window, and a mid-session
decision is requested with `step_failed = true` whose request supplies
exactly the steps with status `"completed"` across all plan versions as
`completed_steps` context, and the loop continues with the newly produced
step. -/
theorem replan_law (perceive : PerceptionInput → PerceptionSnapshot)
    (executor : String → ExecResult) (decide : DecisionInput → DecisionOutput)
    (strategy query : String) (st : Step) (session : AgentSession)
    (sm : List MemoryRecord) (e : ExecResult) (p : PerceptionSnapshot)
    (st2 : Step) (s2 : AgentSession)
    (htype : st.type = "CODE")
    (he : executor (stepCode st) = e)
    (hp : perceive (stepResultInput e sm (lastPlanText session)) = p)
    (ho : p.original_goal_achieved = false)
    (hl : p.local_goal_achieved = false)
    (hst2 : st2 = { st with
        execution_result := some (ExecVal.ofExec e)
        status := "completed"
        perception := some p })
    (hs2 : s2 = setCurrentStep session st2) :
    execute_step perceive executor st session sm =
      (some st2, s2, pushFailure sm (failureRecord st e),
        [Event.stepStart st, Event.executorCall (stepCode st),
          Event.windowObs sm,
          Event.perceptionCall (stepResultInput e sm (lastPlanText session))]) ∧
    evaluate_step decide strategy st2 s2 query =
      (some (create_step (decide (midInput strategy query s2 st2 true))),
        { s2 with plan_versions := s2.plan_versions ++
            [⟨(decide (midInput strategy query s2 st2 true)).plan_text,
              [create_step (decide (midInput strategy query s2 st2 true))]⟩] },
        [Event.decisionCall (midInput strategy query s2 st2 true)]) ∧
    midInput strategy query s2 st2 true =
      DecisionInput.midSession strategy query s2.plan_versions.length
        (lastPlanText s2)
        ((s2.plan_versions.flatMap PlanVersion.steps).filter
          (fun s => s.status = "completed")) st2 true := by
  subst hs2 hst2 hp he
  refine ⟨?_, ?_, rfl⟩
  · have hl' := hl
    simp only [stepResultInput, List.append_nil] at hl'
    simp only [execute_step, htype, if_true, run_perception, failureRecord,
      ExecVal.toStr]
    simp [hl', stepResultInput]
  · simp [evaluate_step, evalSnapshot, ho, hl, replan_after_failure,
      run_mid_session_decision, append_new_plan_version,
      AgentSession.add_plan_version, midInput]

/-- Witness for C6: a concrete failed `CODE` step appends its failure record
to the window. -/
theorem replan_law_witness :
    (execute_step (fun _ => exSnap false false) (fun _ => exExec) exStepCode
        exSession []).2.2.1 = pushFailure [] (failureRecord exStepCode exExec) := by
  have h := (replan_law (fun _ => exSnap false false) (fun _ => exExec)
    (exDecide "CODE") "exploratory" "q" exStepCode exSession [] exExec
    (exSnap false false) exStepFailDone (setCurrentStep exSession exStepFailDone)
    rfl rfl rfl rfl rfl rfl rfl).1
  rw [h]

/-- C7: CONCLUDE semantics — for every executed `CONCLUDE` step, the
conclusion text is stored as the step's execution result, the step is
marked completed, perception runs on the conclusion text, the session is
marked complete with that snapshot and the conclusion as final answer, and
`execute_step` returns `None`, so the loop ends immediately (for every
decision collaborator) without running the evaluate phase on this step. -/
theorem conclude_law (perceive : PerceptionInput → PerceptionSnapshot)
    (executor : String → ExecResult) (decide : DecisionInput → DecisionOutput)
    (strategy query : String) (st : Step) (session : AgentSession)
    (sm : List MemoryRecord) (concl : String) (p : PerceptionSnapshot)
    (st2 : Step)
    (htype : st.type = "CONCLUDE")
    (hc : st.conclusion = some concl)
    (hp : perceive (concludeInput concl sm (lastPlanText session)) = p)
    (hst2 : st2 = { st with
        execution_result := some (ExecVal.ofText concl)
        status := "completed"
        perception := some p }) :
    execute_step perceive executor st session sm =
      (none, (setCurrentStep session st2).mark_complete p (some concl), sm,
        [Event.stepStart st, Event.windowObs sm,
          Event.perceptionCall (concludeInput concl sm (lastPlanText session))]) ∧
    ((setCurrentStep session st2).mark_complete p (some concl)).state.final_answer
        = some concl ∧
    ((setCurrentStep session st2).mark_complete p
        (some concl)).state.original_goal_achieved = true ∧
    ∀ fuel, loopSteps perceive executor decide strategy query (fuel + 1) st
        session sm =
      ((setCurrentStep session st2).mark_complete p (some concl),
        [Event.stepStart st, Event.windowObs sm,
          Event.perceptionCall (concludeInput concl sm (lastPlanText session))]) := by
  subst hst2 hp
  have hexec : execute_step perceive executor st session sm =
      (none, (setCurrentStep session
          { st with
            execution_result := some (ExecVal.ofText concl)
            status := "completed"
            perception := some (perceive (concludeInput concl sm (lastPlanText session))) }).mark_complete
        (perceive (concludeInput concl sm (lastPlanText session))) (some concl), sm,
        [Event.stepStart st, Event.windowObs sm,
          Event.perceptionCall (concludeInput concl sm (lastPlanText session))]) := by
    simp [execute_step, htype, hc, run_perception, concludeInput]
  refine ⟨hexec, by simp [AgentSession.mark_complete], by simp [AgentSession.mark_complete], ?_⟩
  intro fuel
  simp [loopSteps, hexec]

/-- Witness for C7: a concrete `CONCLUDE` step ends the loop with the
conclusion as final answer. -/
theorem conclude_law_witness :
    ((setCurrentStep exSession exStepConcludeDone).mark_complete
        (exSnap false false) (some "done")).state.final_answer = some "done" :=
  (conclude_law (fun _ => exSnap false false) (fun _ => exExec)
    (exDecide "CODE") "exploratory" "q" exStepConclude exSession [] "done"
    (exSnap false false) exStepConcludeDone rfl rfl rfl rfl).2.1

/-- C8: NOP semantics — executing a `NOP` step sets its status to
`"clarification_needed"` with no execution result and no perception
snapshot attached; and for every run whose initial decision returns a `NOP`
step (and whose opening perception did not already achieve the goal), `run`
returns a session containing that step with no final answer set in the
session state. -/
theorem nop_law (perceive : PerceptionInput → PerceptionSnapshot)
    (executor : String → ExecResult) (st : Step) (session : AgentSession)
    (sm : List MemoryRecord) (c : Collaborators)
    (strategy session_id query : String) (fuel : Nat) :
    (st.type = "NOP" →
      execute_step perceive executor st session sm =
        (none,
          setCurrentStep session { st with status := "clarification_needed" },
          sm, [Event.stepStart st])) ∧
    ((openingSnapshot c query).original_goal_achieved = false →
      (initialDecision c strategy query).type = "NOP" →
      (AgentLoop.run c strategy session_id query (fuel + 1)).1.plan_versions =
        [⟨(initialDecision c strategy query).plan_text,
          [{ create_step (initialDecision c strategy query) with
              status := "clarification_needed" }]⟩] ∧
      ({ create_step (initialDecision c strategy query) with
          status := "clarification_needed" }).status = "clarification_needed" ∧
      ({ create_step (initialDecision c strategy query) with
          status := "clarification_needed" }).execution_result = none ∧
      ({ create_step (initialDecision c strategy query) with
          status := "clarification_needed" }).perception = none ∧
      (AgentLoop.run c strategy session_id query (fuel + 1)).1.state.final_answer
          = none) := by
  have ha : ∀ (pv : PerceptionInput → PerceptionSnapshot)
      (ex : String → ExecResult) (st1 : Step) (session1 : AgentSession)
      (sm1 : List MemoryRecord), st1.type = "NOP" →
      execute_step pv ex st1 session1 sm1 =
        (none,
          setCurrentStep session1 { st1 with status := "clarification_needed" },
          sm1, [Event.stepStart st1]) := by
    intro pv ex st1 session1 sm1 h
    simp [execute_step, h]
  refine ⟨ha perceive executor st session sm, fun h1 h2 => ?_⟩
  have hstep : (create_step (initialDecision c strategy query)).type = "NOP" := by
    simp [create_step, h2]
  rw [run_eq_slow c strategy session_id query (fuel + 1) h1]
  rw [show fuel + 1 = Nat.succ fuel from rfl]
  simp only [loopSteps,
    ha c.perceive c.executor (create_step (initialDecision c strategy query))
      (sessionAfterPlan1 c strategy session_id query) [] hstep]
  simp [setCurrentStep, sessionAfterPlan1, AgentSession.add_plan_version,
    AgentSession.add_perception, AgentSession.new, create_step]

/-- Witness for C8: a concrete run whose initial decision returns `NOP`
ends with no final answer. -/
theorem nop_law_witness :
    (AgentLoop.run cNop "exploratory" "sid" "q" 1).1.state.final_answer = none :=
  ((nop_law (fun _ => exSnap false false) (fun _ => exExec) exStepNop exSession
      [] cNop "exploratory" "sid" "q" 0).2 (by decide) (by decide)).2.2.2.2

theorem planInv_setCurrentStep (s : AgentSession) (st : Step) (h : planInv s) :
    planInv (setCurrentStep s st) := by
  obtain ⟨h1, h2⟩ := h
  unfold setCurrentStep
  cases hL : s.plan_versions.getLast? with
  | none => exact ⟨h1, h2⟩
  | some v =>
    refine ⟨by simp, ?_⟩
    intro v1 hv1
    cases List.mem_append.mp hv1 with
    | inl hv1 => exact h2 v1 (List.dropLast_subset _ hv1)
    | inr hv1 =>
      simp only [List.mem_singleton] at hv1
      subst hv1
      simp

theorem planInv_append (s : AgentSession) (pt : List String) (st : Step)
    (h : planInv s) :
    planInv { s with plan_versions := s.plan_versions ++ [⟨pt, [st]⟩] } := by
  obtain ⟨h1, h2⟩ := h
  refine ⟨by simp, ?_⟩
  intro v hv
  cases List.mem_append.mp hv with
  | inl hv => exact h2 v hv
  | inr hv =>
    simp only [List.mem_singleton] at hv
    subst hv
    simp

theorem planInv_execute (perceive : PerceptionInput → PerceptionSnapshot)
    (executor : String → ExecResult) (st : Step) (session : AgentSession)
    (sm : List MemoryRecord) (h : planInv session) :
    planInv (execute_step perceive executor st session sm).2.1 := by
  unfold execute_step
  split
  · dsimp only [run_perception]
    exact planInv_setCurrentStep session _ h
  · split
    · dsimp only [run_perception]
      exact planInv_setCurrentStep session _ h
    · split
      · exact planInv_setCurrentStep session _ h
      · exact h

theorem planInv_get_next (decide : DecisionInput → DecisionOutput)
    (strategy : String) (session : AgentSession) (query : String) (st : Step)
    (h : planInv session) :
    planInv (get_next_step decide strategy session query st).2.1 := by
  by_cases hc : st.index + 1 < (lastPlanText session).length
  · simp only [get_next_step, hc, if_true, run_mid_session_decision,
      append_new_plan_version, AgentSession.add_plan_version]
    exact planInv_append session _ _ h
  · simp only [get_next_step, hc, if_false]
    exact h

theorem planInv_replan (decide : DecisionInput → DecisionOutput)
    (strategy : String) (session : AgentSession) (query : String) (st : Step)
    (h : planInv session) :
    planInv (replan_after_failure decide strategy session query st).2.1 := by
  simp only [replan_after_failure, run_mid_session_decision,
    append_new_plan_version, AgentSession.add_plan_version]
  exact planInv_append session _ _ h

theorem planInv_evaluate (decide : DecisionInput → DecisionOutput)
    (strategy : String) (st : Step) (session : AgentSession) (query : String)
    (h : planInv session) :
    planInv (evaluate_step decide strategy st session query).2.1 := by
  unfold evaluate_step
  split
  · exact h
  · split
    · exact planInv_get_next decide strategy session query st h
    · exact planInv_replan decide strategy session query st h

theorem planInv_loop (perceive : PerceptionInput → PerceptionSnapshot)
    (executor : String → ExecResult) (decide : DecisionInput → DecisionOutput)
    (strategy query : String) :
    ∀ (fuel : Nat) (st : Step) (session : AgentSession) (sm : List MemoryRecord),
      planInv session →
      planInv (loopSteps perceive executor decide strategy query fuel st session sm).1 := by
  intro fuel
  induction fuel with
  | zero => intro st session sm h; simpa [loopSteps] using h
  | succ fuel ih =>
    intro st session sm h
    rcases hE : execute_step perceive executor st session sm with ⟨res, s1, sm1, ev1⟩
    have h1 : planInv s1 := by
      have := planInv_execute perceive executor st session sm h
      rw [hE] at this; exact this
    simp only [loopSteps, hE]
    cases res with
    | none => simpa using h1
    | some st1 =>
      rcases hEv : evaluate_step decide strategy st1 s1 query with ⟨next, s2, ev2⟩
      have h2 : planInv s2 := by
        have := planInv_evaluate decide strategy st1 s1 query h1
        rw [hEv] at this; exact this
      simp only [hEv]
      cases next with
      | none => simpa using h2
      | some st2 =>
        rcases hL : loopSteps perceive executor decide strategy query fuel st2
            s2 sm1 with ⟨sN, ev3⟩
        simp only [hL]
        have := ih st2 s2 sm1 h2
        rw [hL] at this
        simpa using this

/-- Counterexample to C3 as stated: at concrete collaborators whose opening
perception already reports the original goal achieved, `run` returns via the
fast path with an empty plan-version list, so `len(session.plan_versions)
>= 1` fails. -/
theorem plan_versions_cex :
    ¬ 1 ≤ (AgentLoop.run cFast "exploratory" "sid" "q" 1).1.plan_versions.length := by
  rw [run_eq_fast cFast "exploratory" "sid" "q" 1 (by decide)]
  decide

/-- C3 (amended): for every query on which `run` returns and whose opening
perception snapshot does not report the original goal achieved (so the fast
path is not taken), the returned session has at least one plan version, and
every plan version in the list has a non-empty step list. -/
theorem plan_versions_nonempty (c : Collaborators)
    (strategy session_id query : String) (fuel : Nat)
    (h : (openingSnapshot c query).original_goal_achieved = false) :
    1 ≤ (AgentLoop.run c strategy session_id query fuel).1.plan_versions.length ∧
    ∀ v ∈ (AgentLoop.run c strategy session_id query fuel).1.plan_versions,
      v.steps ≠ [] := by
  rw [run_eq_slow c strategy session_id query fuel h]
  have hinv : planInv (sessionAfterPlan1 c strategy session_id query) := by
    refine ⟨by simp [sessionAfterPlan1, AgentSession.add_plan_version], ?_⟩
    intro v hv
    simp only [sessionAfterPlan1, AgentSession.add_plan_version,
      AgentSession.add_perception, AgentSession.new, List.nil_append,
      List.mem_singleton] at hv
    subst hv
    simp
  exact planInv_loop c.perceive c.executor c.decide strategy query fuel
    (create_step (initialDecision c strategy query))
    (sessionAfterPlan1 c strategy session_id query) [] hinv

/-- Witness for the amended C3 at a concrete non-fast-path run. -/
theorem plan_versions_nonempty_witness :
    1 ≤ (AgentLoop.run cNop "exploratory" "sid" "q" 1).1.plan_versions.length :=
  (plan_versions_nonempty cNop "exploratory" "sid" "q" 1 (by decide)).1

theorem executedSteps_append (a b : List Event) :
    executedSteps (a ++ b) = executedSteps a ++ executedSteps b := by
  simp [executedSteps]

theorem executedSteps_execute (perceive : PerceptionInput → PerceptionSnapshot)
    (executor : String → ExecResult) (st : Step) (session : AgentSession)
    (sm : List MemoryRecord) :
    executedSteps (execute_step perceive executor st session sm).2.2.2 = [st] := by
  unfold execute_step
  split
  · dsimp only [run_perception]
    simp [executedSteps]
  · split
    · dsimp only [run_perception]
      simp [executedSteps]
    · split <;> simp [executedSteps]

theorem execute_some_type (perceive : PerceptionInput → PerceptionSnapshot)
    (executor : String → ExecResult) (st : Step) (session : AgentSession)
    (sm : List MemoryRecord) (st1 : Step) (s1 : AgentSession)
    (sm1 : List MemoryRecord) (ev1 : List Event)
    (h : execute_step perceive executor st session sm = (some st1, s1, sm1, ev1)) :
    st.type = "CODE" := by
  by_cases h1 : st.type = "CODE"
  · exact h1
  · exfalso
    revert h
    unfold execute_step
    rw [if_neg h1]
    by_cases h2 : st.type = "CONCLUDE"
    · rw [if_pos h2]
      dsimp only [run_perception]
      intro h
      simp at h
    · rw [if_neg h2]
      by_cases h3 : st.type = "NOP"
      · rw [if_pos h3]
        intro h
        simp at h
      · rw [if_neg h3]
        intro h
        simp at h

theorem executedSteps_evaluate (decide : DecisionInput → DecisionOutput)
    (strategy : String) (st : Step) (session : AgentSession) (query : String) :
    executedSteps (evaluate_step decide strategy st session query).2.2 = [] := by
  simp only [evaluate_step, get_next_step, replan_after_failure,
    run_mid_session_decision]
  split_ifs <;> simp [executedSteps]

theorem singleton_split (st s : Step) (l r : List Step)
    (h : [st] = l ++ s :: r) : r = [] ∧ s = st := by
  cases l with
  | nil =>
    simp only [List.nil_append] at h
    injection h with h1 h2
    exact ⟨h2.symm, h1.symm⟩
  | cons a l2 =>
    simp only [List.cons_append] at h
    injection h with h1 h2
    exact absurd h2.symm (by simp)

theorem loopSteps_terminal (perceive : PerceptionInput → PerceptionSnapshot)
    (executor : String → ExecResult) (decide : DecisionInput → DecisionOutput)
    (strategy query : String) :
    ∀ (fuel : Nat) (st : Step) (session : AgentSession) (sm : List MemoryRecord)
      (l : List Step) (s : Step) (r : List Step),
      executedSteps
          (loopSteps perceive executor decide strategy query fuel st session sm).2 =
        l ++ s :: r →
      (s.type = "CONCLUDE" ∨ s.type = "NOP") → r = [] := by
  intro fuel
  induction fuel with
  | zero =>
    intro st session sm l s r h hterm
    simp [loopSteps, executedSteps] at h
  | succ fuel ih =>
    intro st session sm l s r h hterm
    rcases hE : execute_step perceive executor st session sm with ⟨res, s1, sm1, ev1⟩
    have hev1 : executedSteps ev1 = [st] := by
      have := executedSteps_execute perceive executor st session sm
      rw [hE] at this; exact this
    simp only [loopSteps, hE] at h
    cases res with
    | none =>
      simp only at h
      rw [hev1] at h
      exact (singleton_split st s l r h).1
    | some st1 =>
      have hcode : st.type = "CODE" :=
        execute_some_type perceive executor st session sm st1 s1 sm1 ev1 hE
      rcases hEv : evaluate_step decide strategy st1 s1 query with ⟨next, s2, ev2⟩
      have hev2 : executedSteps ev2 = [] := by
        have := executedSteps_evaluate decide strategy st1 s1 query
        rw [hEv] at this; exact this
      simp only [hEv] at h
      cases next with
      | none =>
        simp only at h
        rw [executedSteps_append, hev1] at h
        have h2 : executedSteps (Event.windowObs sm1 :: ev2) = [] := by
          simp [executedSteps] at hev2 ⊢
          exact hev2
        rw [h2, List.append_nil] at h
        exact (singleton_split st s l r h).1
      | some st2 =>
        rcases hL : loopSteps perceive executor decide strategy query fuel st2
            s2 sm1 with ⟨sN, ev3⟩
        simp only [hL] at h
        rw [executedSteps_append, executedSteps_append, hev1] at h
        have h2 : executedSteps (Event.windowObs sm1 :: ev2) = [] := by
          simp [executedSteps] at hev2 ⊢
          exact hev2
        rw [h2, List.append_nil] at h
        cases l with
        | nil =>
          simp only [List.nil_append] at h
          injection h with h1 h2
          subst h1
          cases hterm with
          | inl ht => rw [ht] at hcode; exact absurd hcode (by decide)
          | inr ht => rw [ht] at hcode; exact absurd hcode (by decide)
        | cons a l2 =>
          simp only [List.cons_append] at h
          injection h with h1 h2
          simp only [List.nil_append] at h2
          refine ih st2 s2 sm1 l2 s r ?_ hterm
          rw [hL]
          exact h2

/-- C9: Terminal law — in every session produced by `run`, no step is ever
executed after a `CONCLUDE` or `NOP` step: whenever the sequence of executed
steps contains a `CONCLUDE` or `NOP` step, nothing follows it. -/
theorem terminal_law (c : Collaborators) (strategy session_id query : String)
    (fuel : Nat) (l r : List Step) (s : Step)
    (hsplit : executedSteps (AgentLoop.run c strategy session_id query fuel).2 =
      l ++ s :: r)
    (hterm : s.type = "CONCLUDE" ∨ s.type = "NOP") :
    r = [] := by
  by_cases h : (openingSnapshot c query).original_goal_achieved = true
  · rw [run_eq_fast c strategy session_id query fuel h] at hsplit
    simp [executedSteps] at hsplit
  · have h1 : (openingSnapshot c query).original_goal_achieved = false := by
      simpa using h
    rw [run_eq_slow c strategy session_id query fuel h1] at hsplit
    rw [executedSteps_append] at hsplit
    have h4 : executedSteps
        [Event.windowObs [], Event.perceptionCall (openingInput c query),
          Event.windowObs [], Event.decisionCall (initialInput c strategy query)]
        = [] := by
      simp [executedSteps]
    rw [h4, List.nil_append] at hsplit
    exact loopSteps_terminal c.perceive c.executor c.decide strategy query fuel
      (create_step (initialDecision c strategy query))
      (sessionAfterPlan1 c strategy session_id query) [] l s r hsplit hterm

/-- Witness for C9: a concrete run whose only executed step is a `CONCLUDE`
step, split with an empty tail. -/
theorem terminal_law_witness : ([] : List Step) = [] :=
  terminal_law cConclude "exploratory" "sid" "q" 1 []
    ([] : List Step)
    { index := 0, description := "d", type := "CONCLUDE", code := none
    , conclusion := some "done", execution_result := none, status := "pending"
    , perception := none }
    (by decide) (Or.inl rfl)
